import Mathlib

/-!
Shallow embedding of the Set-game server core (`src/main.py`) and proofs of
the specification claims.

Modelling conventions:
* A Python `Card` is a structure of five naturals; Python's `Card.__eq__`
  compares by `id` alone, so every list operation that the source performs on
  cards (`field.remove`, the `field_map` lookup) is embedded as an
  id-comparison, never as structural equality.
* The deck is a `List Card` whose HEAD is the deck "top": Python stores the
  deck bottom-first and draws with `deck.pop()` (from the end); we store it
  top-first and draw from the head.  `random.shuffle` is modelled by
  quantifying over an arbitrary permutation of the canonical 81-card deck.
* The `players` dict (token -> score) is a partial map `String → Option Int`.
* Exceptions are explicit: `pick_set` can raise `ValueError`
  (`list.remove` of an absent element) or `KeyError` (`dict[k]` on a missing
  key); the embedding returns `Except (PickErr × Room) …` where the `Room`
  in the error payload is the room state at the moment the exception is
  raised (mutations performed before the raise are kept, as in Python).
-/

structure Card where
  id : Nat
  count : Nat
  shape : Nat
  fill : Nat
  color : Nat
deriving DecidableEq, Repr

/-- Kinds of uncaught Python exception that `GameRoom.pick_set` can raise. -/
inductive PickErr where
  | valueError
  | keyError
deriving DecidableEq, Repr

/-- The mutable state of a `GameRoom` (deck, field, players, status). -/
structure Room where
  deck : List Card
  field : List Card
  players : String → Option Int
  status : String

def ongoing : String := "ongoing"
def ended : String := "ended"

/-- Card at position `n` of the canonical enumeration produced by
`GameRoom._initialize_deck` before shuffling: four nested loops over
`[1,2,3]`, `color` outermost, then `shape`, `fill`, and `count` innermost,
with `card_id` incremented once per card.  Hence position `n` carries
`count = n % 3 + 1`, `fill = n / 3 % 3 + 1`, `shape = n / 9 % 3 + 1`,
`color = n / 27 % 3 + 1`. -/
def cardOfIndex (n : Nat) : Card :=
  { id := n, count := n % 3 + 1, shape := n / 9 % 3 + 1,
    fill := n / 3 % 3 + 1, color := n / 27 % 3 + 1 }

/-- The 81-card catalog in canonical enumeration order
(`GameRoom._initialize_deck` before the shuffle). -/
def canonicalDeck : List Card := (List.range 81).map cardOfIndex

/-- Room construction (`GameRoom.__init__`): the argument `d` is the deck
after `random.shuffle` (an arbitrary permutation of `canonicalDeck`);
`_deal_initial_cards` then pops `min 12 |deck|` cards from the deck top into
the field. -/
def mkRoom (d : List Card) : Room :=
  { deck := d.drop (min 12 d.length),
    field := d.take (min 12 d.length),
    players := fun _ => none,
    status := ongoing }

/-- Embeds `GameRoom.add_player`: create a score entry at 0 unless one exists. -/
def addPlayer (r : Room) (token : String) : Room :=
  if r.players token = none then
    { r with players := fun t => if t = token then some 0 else r.players t }
  else r

/-- Embeds `GameRoom.get_player_score`: `self.players.get(token, 0)`. -/
def getPlayerScore (r : Room) (token : String) : Int :=
  (r.players token).getD 0

/-- The per-attribute test of `GameRoom._is_valid_set.check`:
`(v1 == v2 == v3) or (v1 != v2 and v1 != v3 and v2 != v3)`. -/
def attrCheck (v1 v2 v3 : Nat) : Bool :=
  (v1 == v2 && v2 == v3) || (v1 != v2 && v1 != v3 && v2 != v3)

/-- Embeds `GameRoom._is_valid_set`: all four attribute checks, in source order
(color, shape, fill, count). -/
def isValidSet (c1 c2 c3 : Card) : Bool :=
  attrCheck c1.color c2.color c3.color && attrCheck c1.shape c2.shape c3.shape &&
    attrCheck c1.fill c2.fill c3.fill && attrCheck c1.count c2.count c3.count

/-- Lookup in `field_map = {c.id: c for c in self.field}`: a Python dict
comprehension keeps the LAST entry for a duplicated key, hence the
`reverse.find?`. -/
def fieldMapGet (field : List Card) (cid : Nat) : Option Card :=
  field.reverse.find? (fun c => c.id == cid)

/-- One step of `self.field.remove(card)`: removes the FIRST element whose
id equals `card`'s id (Python `Card.__eq__` is id equality); `none` models
the `ValueError` raised when no element matches. -/
def removeCard : List Card → Card → Option (List Card)
  | [], _ => none
  | c :: rest, card =>
    if c.id = card.id then some rest
    else (removeCard rest card).map (fun l => c :: l)

/-- The removal loop `for card in selected_cards: self.field.remove(card)`.
On a `ValueError` the error payload is the field as already mutated by the
removals performed before the raise. -/
def removeCards : List Card → List Card → Except (List Card) (List Card)
  | field, [] => .ok field
  | field, c :: rest =>
    match removeCard field c with
    | none => .error field
    | some field' => removeCards field' rest

/-- The replenishment step of `pick_set`: `cards_needed = 12 - len(field)`
(the `if cards_needed > 0` guard coincides with natural subtraction), then
pop `min cards_needed |deck|` cards from the deck top onto the field.
Returns (new deck, new field). -/
def replenish (deck field : List Card) : List Card × List Card :=
  let k := min (12 - field.length) deck.length
  (deck.drop k, field ++ deck.take k)

/-- The body of `pick_set` after the three ids have been resolved to cards
`c1, c2, c3` of the field (in request order). -/
def pickResolved (r : Room) (token : String) (c1 c2 c3 : Card) :
    Except (PickErr × Room) (Room × Bool × Int) :=
  if isValidSet c1 c2 c3 then
    match removeCards r.field [c1, c2, c3] with
    | .error f' => .error (.valueError, { r with field := f' })
    | .ok f1 =>
      match r.players token with
      | none => .error (.keyError, { r with field := f1 })
      | some sc =>
        let rep := replenish r.deck f1
        let st := if rep.1 = [] ∧ rep.2.length < 3 then ended else r.status
        .ok ({ deck := rep.1, field := rep.2,
               players := fun t => if t = token then some (sc + 1) else r.players t,
               status := st },
             true, sc + 1)
  else
    match r.players token with
    | none => .error (.keyError, r)
    | some sc =>
      .ok ({ r with players := fun t => if t = token then some (sc - 1) else r.players t },
           false, sc - 1)

/-- Embeds `GameRoom.pick_set`.  Guards in source order: status check, cardinality
check, then resolution of each id against `field_map` (an id missing from
the map rejects the call before any mutation).  A list of length 3 is
exactly a list of the form `[i1, i2, i3]`, so the cardinality check and the
resolution loop are rendered as one nested match; all rejecting branches
return the same unmutated result the source returns. -/
def pickSet (r : Room) (token : String) (cardIds : List Nat) :
    Except (PickErr × Room) (Room × Bool × Int) :=
  if r.status ≠ ongoing then .ok (r, false, getPlayerScore r token)
  else if cardIds.length ≠ 3 then .ok (r, false, getPlayerScore r token)
  else
    match cardIds with
    | [i1, i2, i3] =>
      match fieldMapGet r.field i1, fieldMapGet r.field i2, fieldMapGet r.field i3 with
      | some c1, some c2, some c3 => pickResolved r token c1 c2 c3
      | _, _, _ => .ok (r, false, getPlayerScore r token)
    | _ => .ok (r, false, getPlayerScore r token)

/-- Embeds `GameRoom.add_cards_manual`: pop `min 3 |deck|` cards from the deck top
onto the field. -/
def addCardsManual (r : Room) : Room :=
  let k := min 3 r.deck.length
  { r with deck := r.deck.drop k, field := r.field ++ r.deck.take k }

/-- Returns `true` iff the call returned a `(success, score)` outcome rather than
raising an exception. -/
def returnsOutcome (x : Except (PickErr × Room) (Room × Bool × Int)) : Bool :=
  match x with
  | .ok _ => true
  | .error _ => false

/-- The room component of a returned outcome (`fallback` if the call raised). -/
def okRoom (x : Except (PickErr × Room) (Room × Bool × Int)) (fallback : Room) : Room :=
  match x with
  | .ok (r, _, _) => r
  | .error _ => fallback

/-- Property named by the spec for one attribute: the three values are all
identical or pairwise all distinct (an exactly-two-equal pattern fails). -/
def allSameOrAllDiff (v1 v2 v3 : Nat) : Prop :=
  (v1 = v2 ∧ v2 = v3) ∨ (v1 ≠ v2 ∧ v1 ≠ v3 ∧ v2 ≠ v3)

/-- One completed (normally returning) mutating operation on a room.  The
`Nat` component is a ghost counter of successfully claimed sets: it is bumped
exactly when `pick_set` returns success. -/
inductive Step : Room × Nat → Room × Nat → Prop where
  | pick (r : Room) (n : Nat) (tok : String) (ids : List Nat) (r' : Room) (ok : Bool) (sc : Int) :
      pickSet r tok ids = .ok (r', ok, sc) →
      Step (r, n) (r', if ok then n + 1 else n)
  | draw (r : Room) (n : Nat) : Step (r, n) (addCardsManual r, n)
  | join (r : Room) (n : Nat) (tok : String) : Step (r, n) (addPlayer r tok, n)

/-- Room states reachable from construction through completed operations
(every `pick_set` call returned an outcome; none raised). -/
inductive Reach : Room × Nat → Prop where
  | init (d : List Card) : d.Perm canonicalDeck → Reach (mkRoom d, 0)
  | step {s s' : Room × Nat} : Reach s → Step s s' → Reach s'

/-- Like `Step`, but also admitting `pick_set` calls that raise: the room is
left in the state it had at the moment of the exception (the server catches
the exception at the endpoint and the room object survives). -/
inductive StepAll : Room × Nat → Room × Nat → Prop where
  | ret {s s' : Room × Nat} : Step s s' → StepAll s s'
  | raise (r : Room) (n : Nat) (tok : String) (ids : List Nat) (e : PickErr) (r' : Room) :
      pickSet r tok ids = .error (e, r') →
      StepAll (r, n) (r', n)

/-- Room states reachable when raising `pick_set` calls are also allowed. -/
inductive ReachAll : Room × Nat → Prop where
  | init (d : List Card) : d.Perm canonicalDeck → ReachAll (mkRoom d, 0)
  | step {s s' : Room × Nat} : ReachAll s → StepAll s s' → ReachAll s'

def tokA : String := "a"
def tokZ : String := "z"

/-- A possible fresh room: the identity permutation is one outcome of
`random.shuffle`. -/
def room0 : Room := mkRoom canonicalDeck

/-- The room `room0` after `add_player(tokA)`; its field holds the cards with ids
0..11. -/
def roomA : Room := addPlayer room0 tokA

/-- The state `pick_set(tokA, [0,0,0])` leaves `roomA` in when it raises
`ValueError`: the card with id 0 (the field's head) was removed once, then
the second `field.remove` failed. -/
def roomRaised : Room := { roomA with field := roomA.field.tail }

/-- The room `roomRaised` after a subsequent completed `add_cards_manual`. -/
def roomAfterRaise : Room := addCardsManual roomRaised

/-- The room resulting from the successful pick of the valid set
`[0, 1, 2]` (counts 1,2,3; shape, fill, color all equal) in `roomA`. -/
def roomSucc : Room := okRoom (pickSet roomA tokA [0, 1, 2]) roomA

/-! ## Helper lemmas -/

theorem attrCheck_iff (v1 v2 v3 : Nat) :
    attrCheck v1 v2 v3 = true ↔ allSameOrAllDiff v1 v2 v3 := by
  simp [attrCheck, allSameOrAllDiff]
  tauto

theorem fieldMapGet_mem {f : List Card} {i : Nat} {c : Card}
    (h : fieldMapGet f i = some c) : c ∈ f ∧ c.id = i := by
  unfold fieldMapGet at h
  have h1 := List.find?_some h
  have h2 := List.mem_of_find?_eq_some h
  exact ⟨List.mem_reverse.mp h2, by simpa using h1⟩

theorem removeCard_length {f f' : List Card} {c : Card}
    (h : removeCard f c = some f') : f'.length + 1 = f.length := by
  induction f generalizing f' with
  | nil => simp [removeCard] at h
  | cons a rest ih =>
    unfold removeCard at h
    split at h
    · cases h
      rfl
    · cases hr : removeCard rest c with
      | none => rw [hr] at h; simp at h
      | some l =>
        rw [hr] at h
        simp only [Option.map] at h
        cases h
        simp [ih hr]

theorem removeCard_mem_perm {f : List Card} {c : Card}
    (hc : c ∈ f) (hnd : (f.map Card.id).Nodup) :
    ∃ f', removeCard f c = some f' ∧ f.Perm (c :: f') ∧
      (f'.map Card.id).Nodup ∧ ∀ x ∈ f', x ∈ f := by
  induction f with
  | nil => simp at hc
  | cons a rest ih =>
    rw [List.map_cons, List.nodup_cons] at hnd
    by_cases hid : a.id = c.id
    · have hac : a = c := by
        rcases List.mem_cons.mp hc with rfl | hcr
        · rfl
        · exact absurd (hid ▸ List.mem_map_of_mem Card.id hcr) hnd.1
      subst hac
      exact ⟨rest, by simp [removeCard, hid], List.Perm.refl _, hnd.2,
        fun x hx => List.mem_cons_of_mem _ hx⟩
    · have hcr : c ∈ rest := by
        rcases List.mem_cons.mp hc with rfl | h
        · exact absurd rfl hid
        · exact h
      obtain ⟨f', hrm, hperm, hnd', hsub⟩ := ih hcr hnd.2
      refine ⟨a :: f', by simp [removeCard, hid, hrm], ?_, ?_, ?_⟩
      · exact (hperm.cons a).trans (List.Perm.swap c a f')
      · rw [List.map_cons, List.nodup_cons]
        exact ⟨fun hmem => by
          obtain ⟨x, hxf, hxid⟩ := List.mem_map.mp hmem
          exact hnd.1 (hxid ▸ List.mem_map_of_mem Card.id (hsub x hxf)), hnd'⟩
      · rintro x hx
        rcases List.mem_cons.mp hx with rfl | hx'
        · exact List.mem_cons_self _ _
        · exact List.mem_cons_of_mem _ (hsub x hx')

theorem removeCards_ok_length {cs f f' : List Card}
    (h : removeCards f cs = .ok f') : f'.length + cs.length = f.length := by
  induction cs generalizing f with
  | nil =>
    unfold removeCards at h
    cases h
    simp
  | cons c rest ih =>
    unfold removeCards at h
    cases hr : removeCard f c with
    | none => rw [hr] at h; exact absurd h (by simp)
    | some f1 =>
      rw [hr] at h
      have := ih h
      have := removeCard_length hr
      simp only [List.length_cons]
      omega

theorem removeCards_three {f : List Card} {c1 c2 c3 : Card}
    (hnd : (f.map Card.id).Nodup)
    (h1 : c1 ∈ f) (h2 : c2 ∈ f) (h3 : c3 ∈ f)
    (d12 : c1.id ≠ c2.id) (d13 : c1.id ≠ c3.id) (d23 : c2.id ≠ c3.id) :
    ∃ f', removeCards f [c1, c2, c3] = .ok f' ∧ f.Perm (c1 :: c2 :: c3 :: f') := by
  obtain ⟨f1, hr1, hp1, hnd1, hs1⟩ := removeCard_mem_perm h1 hnd
  have h2' : c2 ∈ f1 := by
    rcases List.mem_cons.mp (hp1.mem_iff.mp h2) with rfl | h
    · exact absurd rfl d12
    · exact h
  obtain ⟨f2, hr2, hp2, hnd2, hs2⟩ := removeCard_mem_perm h2' hnd1
  have h3' : c3 ∈ f2 := by
    have h3f1 : c3 ∈ f1 := by
      rcases List.mem_cons.mp (hp1.mem_iff.mp h3) with rfl | h
      · exact absurd rfl d13
      · exact h
    rcases List.mem_cons.mp (hp2.mem_iff.mp h3f1) with rfl | h
    · exact absurd rfl d23
    · exact h
  obtain ⟨f3, hr3, hp3, _, _⟩ := removeCard_mem_perm h3' hnd2
  refine ⟨f3, ?_, ?_⟩
  · unfold removeCards
    rw [hr1]
    unfold removeCards
    rw [hr2]
    unfold removeCards
    rw [hr3]
    rfl
  · exact hp1.trans ((hp2.trans (hp3.cons c2)).cons c1)

theorem replenish_length (d f : List Card) :
    (replenish d f).1.length + (replenish d f).2.length = d.length + f.length := by
  simp only [replenish, List.length_drop, List.length_append, List.length_take]
  omega

theorem ongoing_ne_ended : ongoing ≠ ended := by decide

theorem pickSet_ok_true_state {r : Room} {tok : String} {ids : List Nat} {r' : Room} {sc : Int}
    (h : pickSet r tok ids = .ok (r', true, sc)) :
    r.status = ongoing ∧
    r.deck.length + r.field.length = r'.deck.length + r'.field.length + 3 ∧
    (r'.status = ended ↔ (r'.deck = [] ∧ r'.field.length < 3)) := by
  unfold pickSet at h
  split at h
  · simp at h
  next hst =>
    rw [not_not] at hst
    refine ⟨hst, ?_⟩
    split at h
    · simp at h
    split at h
    next i1 i2 i3 =>
      split at h
      next c1 c2 c3 hg1 hg2 hg3 =>
        unfold pickResolved at h
        split at h
        · split at h
          next f' hrem => simp at h
          next f1 hrem =>
            split at h
            · simp at h
            next sc0 hp =>
              simp only [Except.ok.injEq, Prod.mk.injEq] at h
              obtain ⟨hr', -, -⟩ := h
              subst hr'
              have hlen1 := removeCards_ok_length hrem
              have hlen2 := replenish_length r.deck f1
              constructor
              · dsimp only
                simp only [List.length_cons, List.length_nil] at hlen1
                omega
              · show (if (replenish r.deck f1).1 = [] ∧ (replenish r.deck f1).2.length < 3
                      then ended else r.status) = ended ↔ _
                split
                next hcond => simpa using hcond
                next hcond => simp [hst, hcond, ongoing_ne_ended]
        · split at h
          · simp at h
          · simp at h
      next hne => simp at h
    · simp at h

theorem pickSet_ok_false_state {r : Room} {tok : String} {ids : List Nat} {r' : Room} {sc : Int}
    (h : pickSet r tok ids = .ok (r', false, sc)) :
    r'.deck = r.deck ∧ r'.field = r.field ∧ r'.status = r.status := by
  unfold pickSet at h
  split at h
  · simp only [Except.ok.injEq, Prod.mk.injEq] at h
    obtain ⟨hr', -, -⟩ := h
    subst hr'
    exact ⟨rfl, rfl, rfl⟩
  split at h
  · simp only [Except.ok.injEq, Prod.mk.injEq] at h
    obtain ⟨hr', -, -⟩ := h
    subst hr'
    exact ⟨rfl, rfl, rfl⟩
  split at h
  next i1 i2 i3 =>
    split at h
    next c1 c2 c3 hg1 hg2 hg3 =>
      unfold pickResolved at h
      split at h
      · split at h
        · simp at h
        · split at h
          · simp at h
          · simp at h
      · split at h
        · simp at h
        next sc0 hp =>
          simp only [Except.ok.injEq, Prod.mk.injEq] at h
          obtain ⟨hr', -, -⟩ := h
          subst hr'
          exact ⟨rfl, rfl, rfl⟩
    next hne =>
      simp only [Except.ok.injEq, Prod.mk.injEq] at h
      obtain ⟨hr', -, -⟩ := h
      subst hr'
      exact ⟨rfl, rfl, rfl⟩
  next hne =>
    simp only [Except.ok.injEq, Prod.mk.injEq] at h
    obtain ⟨hr', -, -⟩ := h
    subst hr'
    exact ⟨rfl, rfl, rfl⟩

theorem pickSet_error_state {r : Room} {tok : String} {ids : List Nat} {e : PickErr} {r' : Room}
    (h : pickSet r tok ids = .error (e, r')) :
    r'.deck = r.deck ∧ r'.status = r.status ∧ r'.players = r.players := by
  unfold pickSet at h
  split at h
  · simp at h
  split at h
  · simp at h
  split at h
  next i1 i2 i3 =>
    split at h
    next c1 c2 c3 hg1 hg2 hg3 =>
      unfold pickResolved at h
      split at h
      · split at h
        next f' hrem =>
          simp only [Except.error.injEq, Prod.mk.injEq] at h
          obtain ⟨-, hr'⟩ := h
          subst hr'
          exact ⟨rfl, rfl, rfl⟩
        next f1 hrem =>
          split at h
          next hp =>
            simp only [Except.error.injEq, Prod.mk.injEq] at h
            obtain ⟨-, hr'⟩ := h
            subst hr'
            exact ⟨rfl, rfl, rfl⟩
          next sc0 hp => simp at h
      · split at h
        next hp =>
          simp only [Except.error.injEq, Prod.mk.injEq] at h
          obtain ⟨-, hr'⟩ := h
          subst hr'
          exact ⟨rfl, rfl, rfl⟩
        next sc0 hp => simp at h
    next hne => simp at h
  · simp at h

theorem pickSet_resolved_eq {r : Room} (tok : String) {i1 i2 i3 : Nat} {c1 c2 c3 : Card}
    (hst : r.status = ongoing)
    (h1 : fieldMapGet r.field i1 = some c1)
    (h2 : fieldMapGet r.field i2 = some c2)
    (h3 : fieldMapGet r.field i3 = some c3) :
    pickSet r tok [i1, i2, i3] = pickResolved r tok c1 c2 c3 := by
  simp [pickSet, hst, h1, h2, h3]

theorem pickSet_rejected_aux (r : Room) (tok : String) (ids : List Nat)
    (h : r.status ≠ ongoing ∨ ids.length ≠ 3 ∨ ∃ i ∈ ids, fieldMapGet r.field i = none) :
    pickSet r tok ids = .ok (r, false, getPlayerScore r tok) := by
  by_cases hst : r.status ≠ ongoing
  · simp [pickSet, hst]
  · by_cases hlen : ids.length = 3
    · obtain ⟨i1, i2, i3, rfl⟩ := List.length_eq_three.mp hlen
      have hex : ∃ i ∈ [i1, i2, i3], fieldMapGet r.field i = none := by
        rcases h with h | h | h
        · exact absurd h hst
        · exact absurd hlen h
        · exact h
      obtain ⟨i, hi, hnone⟩ := hex
      have hi' : i = i1 ∨ i = i2 ∨ i = i3 := by simpa using hi
      rcases hg1 : fieldMapGet r.field i1 with _ | c1 <;>
        rcases hg2 : fieldMapGet r.field i2 with _ | c2 <;>
          rcases hg3 : fieldMapGet r.field i3 with _ | c3 <;>
            [skip; skip; skip; skip; skip; skip; skip;
             (rcases hi' with rfl | rfl | rfl <;> simp_all)] <;>
        simp [pickSet, hst, hg1, hg2, hg3]
    · simp [pickSet, hst, hlen]

theorem pickSet_invalid_aux {r : Room} {tok : String} {c1 c2 c3 : Card} {sc : Int}
    (hv : isValidSet c1 c2 c3 = false) (hp : r.players tok = some sc) :
    pickResolved r tok c1 c2 c3 =
      .ok ({ r with players := fun t => if t = tok then some (sc - 1) else r.players t },
           false, sc - 1) := by
  simp [pickResolved, hv, hp]

theorem pickSet_valid_aux {r : Room} {tok : String} {i1 i2 i3 : Nat} {c1 c2 c3 : Card} {sc : Int}
    (hst : r.status = ongoing) (hnd : (r.field.map Card.id).Nodup)
    (d12 : i1 ≠ i2) (d13 : i1 ≠ i3) (d23 : i2 ≠ i3)
    (h1 : fieldMapGet r.field i1 = some c1)
    (h2 : fieldMapGet r.field i2 = some c2)
    (h3 : fieldMapGet r.field i3 = some c3)
    (hv : isValidSet c1 c2 c3 = true)
    (hp : r.players tok = some sc) :
    ∃ r', pickSet r tok [i1, i2, i3] = .ok (r', true, sc + 1) ∧
      r'.deck = r.deck.drop (min (12 - (r.field.length - 3)) r.deck.length) ∧
      (r'.field ++ [c1, c2, c3]).Perm
        (r.field ++ r.deck.take (min (12 - (r.field.length - 3)) r.deck.length)) ∧
      r'.field.length = (r.field.length - 3) + min (12 - (r.field.length - 3)) r.deck.length ∧
      3 ≤ r.field.length ∧
      (12 ≤ r'.field.length ∨ r'.deck = []) ∧
      r'.players tok = some (sc + 1) ∧
      (∀ t, t ≠ tok → r'.players t = r.players t) := by
  obtain ⟨hm1, hi1⟩ := fieldMapGet_mem h1
  obtain ⟨hm2, hi2⟩ := fieldMapGet_mem h2
  obtain ⟨hm3, hi3⟩ := fieldMapGet_mem h3
  obtain ⟨f', hrem, hperm⟩ := removeCards_three hnd hm1 hm2 hm3
    (by rw [hi1, hi2]; exact d12) (by rw [hi1, hi3]; exact d13) (by rw [hi2, hi3]; exact d23)
  have hflen : r.field.length = f'.length + 3 := by simpa using hperm.length_eq
  have heq : pickSet r tok [i1, i2, i3] =
      .ok ({ deck := (replenish r.deck f').1, field := (replenish r.deck f').2,
             players := fun t => if t = tok then some (sc + 1) else r.players t,
             status := if (replenish r.deck f').1 = [] ∧ (replenish r.deck f').2.length < 3
                       then ended else r.status }, true, sc + 1) := by
    rw [pickSet_resolved_eq tok hst h1 h2 h3]
    simp [pickResolved, hv, hrem, hp]
  have hKf : min (12 - f'.length) r.deck.length
      = min (12 - (r.field.length - 3)) r.deck.length := by omega
  have hrep1 : (replenish r.deck f').1
      = r.deck.drop (min (12 - (r.field.length - 3)) r.deck.length) := by
    simp only [replenish]
    rw [hKf]
  have hrep2 : (replenish r.deck f').2
      = f' ++ r.deck.take (min (12 - (r.field.length - 3)) r.deck.length) := by
    simp only [replenish]
    rw [hKf]
  have hrep2len : (replenish r.deck f').2.length
      = (r.field.length - 3) + min (12 - (r.field.length - 3)) r.deck.length := by
    rw [hrep2]
    simp only [List.length_append, List.length_take]
    omega
  refine ⟨_, heq, hrep1, ?_, hrep2len, by omega, ?_, ?_, ?_⟩
  · rw [hrep2]
    refine List.Perm.trans List.perm_append_comm ?_
    rw [← List.append_assoc]
    exact (hperm.symm.append_right _)
  · by_cases htwelve : 12 ≤ (replenish r.deck f').2.length
    · exact Or.inl htwelve
    · refine Or.inr ?_
      rw [hrep1]
      refine List.drop_eq_nil_of_le ?_
      rw [hrep2len] at htwelve
      omega
  · simp
  · intro t ht
    simp [ht]

theorem attrCheck_swap12 (v1 v2 v3 : Nat) : attrCheck v1 v2 v3 = attrCheck v2 v1 v3 := by
  rw [Bool.eq_iff_iff, attrCheck_iff, attrCheck_iff]
  unfold allSameOrAllDiff
  omega

theorem attrCheck_swap23 (v1 v2 v3 : Nat) : attrCheck v1 v2 v3 = attrCheck v1 v3 v2 := by
  rw [Bool.eq_iff_iff, attrCheck_iff, attrCheck_iff]
  unfold allSameOrAllDiff
  omega

theorem isValidSet_swap12 (a b c : Card) : isValidSet a b c = isValidSet b a c := by
  unfold isValidSet
  rw [attrCheck_swap12 a.color, attrCheck_swap12 a.shape, attrCheck_swap12 a.fill,
    attrCheck_swap12 a.count]

theorem isValidSet_swap23 (a b c : Card) : isValidSet a b c = isValidSet a c b := by
  unfold isValidSet
  rw [attrCheck_swap23 a.color, attrCheck_swap23 a.shape, attrCheck_swap23 a.fill,
    attrCheck_swap23 a.count]

theorem addPlayer_parts (r : Room) (tok : String) :
    (addPlayer r tok).deck = r.deck ∧ (addPlayer r tok).field = r.field ∧
      (addPlayer r tok).status = r.status := by
  unfold addPlayer
  split <;> exact ⟨rfl, rfl, rfl⟩

/-! ## Claim theorems -/

/-- C7: `isValidSet(a, b, c)` returns true iff each of the four attributes
(count, shape, fill, color) is all-identical or pairwise all-distinct across
the three cards (an exactly-two-equal pattern fails), and the result is
invariant under every permutation of the three arguments. -/
theorem isValidSet_spec (a b c : Card) :
    (isValidSet a b c = true ↔
      (allSameOrAllDiff a.count b.count c.count ∧ allSameOrAllDiff a.shape b.shape c.shape ∧
        allSameOrAllDiff a.fill b.fill c.fill ∧ allSameOrAllDiff a.color b.color c.color)) ∧
    isValidSet a b c = isValidSet b a c ∧
    isValidSet a b c = isValidSet a c b ∧
    isValidSet a b c = isValidSet b c a ∧
    isValidSet a b c = isValidSet c a b ∧
    isValidSet a b c = isValidSet c b a := by
  refine ⟨?_, isValidSet_swap12 a b c, isValidSet_swap23 a b c,
    (isValidSet_swap12 a b c).trans (isValidSet_swap23 b a c),
    (isValidSet_swap23 a b c).trans (isValidSet_swap12 a c b),
    (isValidSet_swap12 a b c).trans ((isValidSet_swap23 b a c).trans (isValidSet_swap12 b c a))⟩
  simp only [isValidSet, Bool.and_eq_true, attrCheck_iff]
  tauto

/-- C9: `add_cards_manual` moves exactly `min 3 |deck|` cards from the deck
top onto the field, regardless of the current field size (a no-op when the
deck is empty), and never changes the status or any score.  It is a total
function of the room (it cannot fail). -/
theorem addCardsManual_spec (r : Room) :
    (addCardsManual r).field = r.field ++ r.deck.take (min 3 r.deck.length) ∧
    (addCardsManual r).deck = r.deck.drop (min 3 r.deck.length) ∧
    (addCardsManual r).field.length = r.field.length + min 3 r.deck.length ∧
    (addCardsManual r).status = r.status ∧
    (addCardsManual r).players = r.players ∧
    (r.deck = [] →
      (addCardsManual r).field = r.field ∧ (addCardsManual r).deck = r.deck) := by
  refine ⟨rfl, rfl, ?_, rfl, rfl, ?_⟩
  · simp only [addCardsManual, List.length_append, List.length_take]
    omega
  · intro hd
    simp [addCardsManual, hd]

theorem addCardsManual_spec_witness :
    (mkRoom []).deck = [] ∧
    (addCardsManual (mkRoom [])).field = (mkRoom []).field ∧
    (addCardsManual (mkRoom [])).deck = (mkRoom []).deck :=
  ⟨rfl, (addCardsManual_spec (mkRoom [])).2.2.2.2.2 rfl⟩

/-- C3: a rejected `pick_set` call (room not ongoing, wrong cardinality, or
some id absent from the field) returns `(False, current score)` computed with
the defaulting lookup and leaves the room — deck, field, status, and every
player's score — exactly unchanged; no penalty is applied. -/
theorem pickSet_rejected_spec (r : Room) (tok : String) (ids : List Nat)
    (h : r.status ≠ ongoing ∨ ids.length ≠ 3 ∨ ∃ i ∈ ids, fieldMapGet r.field i = none) :
    pickSet r tok ids = .ok (r, false, getPlayerScore r tok) :=
  pickSet_rejected_aux r tok ids h

theorem pickSet_rejected_spec_witness :
    (([] : List Nat).length ≠ 3) ∧
    pickSet room0 tokA [] = .ok (room0, false, getPlayerScore room0 tokA) :=
  ⟨by decide, pickSet_rejected_spec room0 tokA [] (Or.inr (Or.inl (by decide)))⟩

/-- C4: an invalid-triple `pick_set` in an ongoing room (all three ids
resolve, `isValidSet` false) decrements the acting player's score by exactly
1 (the score is an unbounded integer), returns failure with the decremented
score, and leaves deck, field, status, and all other players' scores
unchanged. -/
theorem pickSet_invalidTriple_spec (r : Room) (tok : String) (i1 i2 i3 : Nat)
    (c1 c2 c3 : Card) (sc : Int)
    (hst : r.status = ongoing)
    (h1 : fieldMapGet r.field i1 = some c1)
    (h2 : fieldMapGet r.field i2 = some c2)
    (h3 : fieldMapGet r.field i3 = some c3)
    (hv : isValidSet c1 c2 c3 = false)
    (hp : r.players tok = some sc) :
    ∃ r', pickSet r tok [i1, i2, i3] = .ok (r', false, sc - 1) ∧
      r'.deck = r.deck ∧ r'.field = r.field ∧ r'.status = r.status ∧
      r'.players tok = some (sc - 1) ∧
      (∀ t, t ≠ tok → r'.players t = r.players t) := by
  refine ⟨{ r with players := fun t => if t = tok then some (sc - 1) else r.players t },
    ?_, rfl, rfl, rfl, by simp, fun t ht => by simp [ht]⟩
  rw [pickSet_resolved_eq tok hst h1 h2 h3]
  exact pickSet_invalid_aux hv hp

theorem pickSet_invalidTriple_spec_witness :
    (isValidSet (cardOfIndex 0) (cardOfIndex 1) (cardOfIndex 3) = false) ∧
    ∃ r', pickSet roomA tokA [0, 1, 3] = .ok (r', false, (0 : Int) - 1) ∧
      r'.deck = roomA.deck ∧ r'.field = roomA.field ∧ r'.status = roomA.status ∧
      r'.players tokA = some ((0 : Int) - 1) ∧
      (∀ t, t ≠ tokA → r'.players t = roomA.players t) :=
  ⟨by decide,
    pickSet_invalidTriple_spec roomA tokA 0 1 3 (cardOfIndex 0) (cardOfIndex 1) (cardOfIndex 3) 0
      (by decide) (by decide) (by decide) (by decide) (by decide) (by decide)⟩

/-- C5 (amended: the three ids pairwise distinct — with a repeated id the
call raises instead, see the counterexample): a valid-set `pick_set` in an
ongoing room removes exactly the three resolved cards from the field,
increments the acting player's score by 1, replenishes the field from the
deck top until it reaches 12 cards or the deck is exhausted, and returns
success with the new score. -/
theorem pickSet_validTriple_spec (r : Room) (tok : String) (i1 i2 i3 : Nat)
    (c1 c2 c3 : Card) (sc : Int)
    (hst : r.status = ongoing)
    (hnd : (r.field.map Card.id).Nodup)
    (d12 : i1 ≠ i2) (d13 : i1 ≠ i3) (d23 : i2 ≠ i3)
    (h1 : fieldMapGet r.field i1 = some c1)
    (h2 : fieldMapGet r.field i2 = some c2)
    (h3 : fieldMapGet r.field i3 = some c3)
    (hv : isValidSet c1 c2 c3 = true)
    (hp : r.players tok = some sc) :
    ∃ r', pickSet r tok [i1, i2, i3] = .ok (r', true, sc + 1) ∧
      r'.deck = r.deck.drop (min (12 - (r.field.length - 3)) r.deck.length) ∧
      (r'.field ++ [c1, c2, c3]).Perm
        (r.field ++ r.deck.take (min (12 - (r.field.length - 3)) r.deck.length)) ∧
      r'.field.length = (r.field.length - 3) + min (12 - (r.field.length - 3)) r.deck.length ∧
      3 ≤ r.field.length ∧
      (12 ≤ r'.field.length ∨ r'.deck = []) ∧
      r'.players tok = some (sc + 1) ∧
      (∀ t, t ≠ tok → r'.players t = r.players t) :=
  pickSet_valid_aux hst hnd d12 d13 d23 h1 h2 h3 hv hp

theorem pickSet_validTriple_spec_witness :
    roomA.status = ongoing ∧ roomA.players tokA = some 0 ∧
    ∃ r', pickSet roomA tokA [0, 1, 2] = .ok (r', true, (0 : Int) + 1) ∧
      r'.deck = roomA.deck.drop (min (12 - (roomA.field.length - 3)) roomA.deck.length) ∧
      (r'.field ++ [cardOfIndex 0, cardOfIndex 1, cardOfIndex 2]).Perm
        (roomA.field ++
          roomA.deck.take (min (12 - (roomA.field.length - 3)) roomA.deck.length)) ∧
      r'.field.length
        = (roomA.field.length - 3) + min (12 - (roomA.field.length - 3)) roomA.deck.length ∧
      3 ≤ roomA.field.length ∧
      (12 ≤ r'.field.length ∨ r'.deck = []) ∧
      r'.players tokA = some ((0 : Int) + 1) ∧
      (∀ t, t ≠ tokA → r'.players t = roomA.players t) :=
  ⟨by decide, by decide,
    pickSet_validTriple_spec roomA tokA 0 1 2
      (cardOfIndex 0) (cardOfIndex 1) (cardOfIndex 2) 0
      (by decide) (by decide) (by decide) (by decide) (by decide)
      (by decide) (by decide) (by decide) (by decide) (by decide)⟩

/-- C5 counterexample: in `roomA` the repeated-id list `[3, 3, 3]` satisfies
every condition of the claim as stated — all three ids resolve to a field
card and the resolved triple satisfies `isValidSet` — yet the call raises
`ValueError` instead of returning success. -/
theorem pickSet_validTriple_cex :
    roomA.status = ongoing ∧
    fieldMapGet roomA.field 3 = some (cardOfIndex 3) ∧
    isValidSet (cardOfIndex 3) (cardOfIndex 3) (cardOfIndex 3) = true ∧
    roomA.players tokA = some 0 ∧
    returnsOutcome (pickSet roomA tokA [3, 3, 3]) = false :=
  ⟨by decide, by decide, by decide, by decide, by decide⟩

/-- C2 (code bug): `pick_set` is not all-or-nothing.  With the repeated-id
list `[0, 0, 0]` (id 0 on the field) in an ongoing room, the call removes
the card with id 0 from the field and then raises an uncaught `ValueError`
at the second `field.remove`, leaving the field one card short while the
deck, the scores, and the status are untouched — a partially mutated state,
contradicting the all-or-nothing contract (and the source's own docstring,
which calls the operation atomic and promises a `(bool, int)` return). -/
theorem pickSet_atomicity_bug :
    pickSet roomA tokA [0, 0, 0] = .error (.valueError, roomRaised) ∧
    roomA.field.length = 12 ∧
    roomRaised.field.length = 11 ∧
    roomRaised.deck = roomA.deck ∧
    roomRaised.players = roomA.players ∧
    roomRaised.status = roomA.status :=
  ⟨rfl, by decide, by decide, rfl, rfl, rfl⟩

/-- C6: the status becomes `ended` iff, immediately after a successful
pick's replenishment, the deck is empty and the field holds fewer than 3
cards — a condition on deck emptiness and field size only, never on whether
a valid set remains.  No other operation or branch (rejected or invalid
picks, raising picks, `add_cards_manual`, `add_player`) ever changes the
status. -/
theorem statusTransition_spec :
    (∀ r tok ids r' sc, pickSet r tok ids = .ok (r', true, sc) →
      (r'.status = ended ↔ (r'.deck = [] ∧ r'.field.length < 3))) ∧
    (∀ r tok ids r' sc, pickSet r tok ids = .ok (r', false, sc) → r'.status = r.status) ∧
    (∀ r tok ids e r', pickSet r tok ids = .error (e, r') → r'.status = r.status) ∧
    (∀ r, (addCardsManual r).status = r.status) ∧
    (∀ r tok, (addPlayer r tok).status = r.status) := by
  refine ⟨?_, ?_, ?_, fun r => rfl, fun r tok => (addPlayer_parts r tok).2.2⟩
  · intro r tok ids r' sc h
    exact (pickSet_ok_true_state h).2.2
  · intro r tok ids r' sc h
    exact (pickSet_ok_false_state h).2.2
  · intro r tok ids e r' h
    exact (pickSet_error_state h).2.1

theorem statusTransition_spec_witness :
    pickSet roomA tokA [0, 1, 2] = .ok (roomSucc, true, 1) ∧
    (roomSucc.status = ended ↔ (roomSucc.deck = [] ∧ roomSucc.field.length < 3)) :=
  ⟨rfl, statusTransition_spec.1 roomA tokA [0, 1, 2] roomSucc 1 rfl⟩

/-- C8: a fresh room deals `min 12 |deck|` cards from the deck top, leaving
12 field cards and 69 deck cards; together they are a permutation of the
81-card catalog, which is duplicate-free, carries ids 0..80 in enumeration
order, and contains exactly one card for every combination of the four
attributes over {1,2,3}. -/
theorem freshRoom_spec (d : List Card) (h : d.Perm canonicalDeck) :
    (mkRoom d).field.length = 12 ∧
    (mkRoom d).deck.length = 69 ∧
    ((mkRoom d).deck ++ (mkRoom d).field).Perm canonicalDeck ∧
    ((mkRoom d).deck ++ (mkRoom d).field).Nodup ∧
    canonicalDeck.length = 81 ∧
    canonicalDeck.map Card.id = List.range 81 ∧
    (∀ cnt ∈ [1, 2, 3], ∀ sh ∈ [1, 2, 3], ∀ fl ∈ [1, 2, 3], ∀ co ∈ [1, 2, 3],
      (canonicalDeck.filter
        (fun c => c.count == cnt && c.shape == sh && c.fill == fl && c.color == co)).length
        = 1) := by
  have hlen : d.length = 81 := by rw [h.length_eq]; rfl
  have hperm : ((mkRoom d).deck ++ (mkRoom d).field).Perm canonicalDeck := by
    refine List.Perm.trans ?_ h
    simp only [mkRoom]
    exact List.perm_append_comm.trans (by rw [List.take_append_drop])
  refine ⟨?_, ?_, hperm, ?_, rfl, by decide, by decide⟩
  · simp [mkRoom, hlen]
  · simp [mkRoom, hlen]
  · refine hperm.nodup_iff.mpr ?_
    have hids : canonicalDeck.map Card.id = List.range 81 := by decide
    exact List.Nodup.of_map Card.id (hids ▸ List.nodup_range 81)

theorem freshRoom_spec_witness :
    canonicalDeck.Perm canonicalDeck ∧
    (mkRoom canonicalDeck).field.length = 12 ∧
    (mkRoom canonicalDeck).deck.length = 69 :=
  ⟨List.Perm.refl _, (freshRoom_spec canonicalDeck (List.Perm.refl _)).1,
    (freshRoom_spec canonicalDeck (List.Perm.refl _)).2.1⟩

/-- C10 (amended: the three resolved ids pairwise distinct — a repeated id
makes the call raise `ValueError` before the scoring step, see the
counterexample): once a `pick_set` call in an ongoing room reaches the
scoring step, a token without a score entry makes the score update raise an
uncaught `KeyError`; if `add_player` registered the token (so a score entry
exists), that branch is unreachable and the call returns an outcome.
Rejected calls use the defaulting `players.get(token, 0)` lookup and are
safe for any token. -/
theorem pickSet_scoreEntry_spec :
    (∀ r tok i1 i2 i3 c1 c2 c3, r.status = ongoing →
      (r.field.map Card.id).Nodup → i1 ≠ i2 → i1 ≠ i3 → i2 ≠ i3 →
      fieldMapGet r.field i1 = some c1 → fieldMapGet r.field i2 = some c2 →
      fieldMapGet r.field i3 = some c3 → r.players tok = none →
      ∃ r', pickSet r tok [i1, i2, i3] = .error (.keyError, r')) ∧
    (∀ r tok i1 i2 i3 c1 c2 c3 sc, r.status = ongoing →
      (r.field.map Card.id).Nodup → i1 ≠ i2 → i1 ≠ i3 → i2 ≠ i3 →
      fieldMapGet r.field i1 = some c1 → fieldMapGet r.field i2 = some c2 →
      fieldMapGet r.field i3 = some c3 → r.players tok = some sc →
      ∃ out, pickSet r tok [i1, i2, i3] = .ok out) ∧
    (∀ r tok ids,
      (r.status ≠ ongoing ∨ ids.length ≠ 3 ∨ ∃ i ∈ ids, fieldMapGet r.field i = none) →
      pickSet r tok ids = .ok (r, false, getPlayerScore r tok)) := by
  refine ⟨?_, ?_, pickSet_rejected_aux⟩
  · intro r tok i1 i2 i3 c1 c2 c3 hst hnd d12 d13 d23 h1 h2 h3 hp
    rw [pickSet_resolved_eq tok hst h1 h2 h3]
    by_cases hv : isValidSet c1 c2 c3
    · obtain ⟨hm1, hi1⟩ := fieldMapGet_mem h1
      obtain ⟨hm2, hi2⟩ := fieldMapGet_mem h2
      obtain ⟨hm3, hi3⟩ := fieldMapGet_mem h3
      obtain ⟨f', hrem, -⟩ := removeCards_three hnd hm1 hm2 hm3
        (by rw [hi1, hi2]; exact d12) (by rw [hi1, hi3]; exact d13)
        (by rw [hi2, hi3]; exact d23)
      exact ⟨{ r with field := f' }, by simp [pickResolved, hv, hrem, hp]⟩
    · rw [Bool.not_eq_true] at hv
      exact ⟨r, by simp [pickResolved, hv, hp]⟩
  · intro r tok i1 i2 i3 c1 c2 c3 sc hst hnd d12 d13 d23 h1 h2 h3 hp
    by_cases hv : isValidSet c1 c2 c3
    · obtain ⟨r', hr', -⟩ := pickSet_valid_aux hst hnd d12 d13 d23 h1 h2 h3 hv hp
      exact ⟨_, hr'⟩
    · rw [Bool.not_eq_true] at hv
      rw [pickSet_resolved_eq tok hst h1 h2 h3]
      exact ⟨_, pickSet_invalid_aux hv hp⟩

theorem pickSet_scoreEntry_spec_witness :
    roomA.players tokZ = none ∧
    ∃ r', pickSet roomA tokZ [0, 1, 2] = .error (.keyError, r') :=
  ⟨by decide,
    pickSet_scoreEntry_spec.1 roomA tokZ 0 1 2
      (cardOfIndex 0) (cardOfIndex 1) (cardOfIndex 2)
      (by decide) (by decide) (by decide) (by decide) (by decide)
      (by decide) (by decide) (by decide) (by decide)⟩

/-- C10 counterexample: with the repeated-id list `[5, 5, 5]` (id 5 on the
field) and a token that WAS registered via `add_player`, the call still
fails to return an outcome — it raises `ValueError` in the removal loop, a
branch the claim does not account for. -/
theorem pickSet_scoreEntry_cex :
    roomA.players tokA = some 0 ∧
    fieldMapGet roomA.field 5 = some (cardOfIndex 5) ∧
    returnsOutcome (pickSet roomA tokA [5, 5, 5]) = false :=
  ⟨by decide, by decide, by decide⟩

theorem addCardsManual_len (r : Room) :
    (addCardsManual r).deck.length + (addCardsManual r).field.length
      = r.deck.length + r.field.length := by
  simp only [addCardsManual, List.length_drop, List.length_append, List.length_take]
  omega

/-- C1 (amended: provided every `pick_set` call so far returned an outcome
rather than raising an exception — the counterexample shows a raising call
breaks the balance): after construction and after every completed
`pick_set`, `add_cards_manual`, or `add_player` operation,
`|deck| + |field| + 3 × (sets successfully claimed)` equals 81. -/
theorem conservation_spec (s : Room × Nat) (h : Reach s) :
    s.1.deck.length + s.1.field.length + 3 * s.2 = 81 := by
  induction h with
  | init d hd =>
    have hlen : d.length = 81 := by rw [hd.length_eq]; rfl
    simp [mkRoom, hlen]
  | step hs hstep ih =>
    cases hstep with
    | pick r n tok ids r' ok sc hok =>
      dsimp only at ih ⊢
      cases ok with
      | true =>
        have hlen := (pickSet_ok_true_state hok).2.1
        simp only [if_true]
        omega
      | false =>
        obtain ⟨hd, hf, -⟩ := pickSet_ok_false_state hok
        rw [hd, hf]
        simpa using ih
    | draw r n =>
      dsimp only at ih ⊢
      have := addCardsManual_len r
      omega
    | join r n tok =>
      dsimp only at ih ⊢
      obtain ⟨hd, hf, -⟩ := addPlayer_parts r tok
      rw [hd, hf]
      exact ih

theorem conservation_spec_witness :
    (mkRoom canonicalDeck).deck.length + (mkRoom canonicalDeck).field.length + 3 * 0 = 81 :=
  conservation_spec (mkRoom canonicalDeck, 0) (Reach.init canonicalDeck (List.Perm.refl _))

/-- C1 counterexample: a raising `pick_set` (repeated-id list `[0, 0, 0]`)
leaves the room one card short; after the NEXT completed operation (an
`add_cards_manual`), the reachable state has
`|deck| + |field| + 3 × (sets claimed) = 80 ≠ 81`, refuting the claim's
"at all times, after every completed operation". -/
theorem conservation_cex :
    ReachAll (roomAfterRaise, 0) ∧
    roomAfterRaise.deck.length + roomAfterRaise.field.length + 3 * 0 ≠ 81 := by
  constructor
  · have h0 : ReachAll (room0, 0) := ReachAll.init canonicalDeck (List.Perm.refl _)
    have h1 : ReachAll (roomA, 0) := ReachAll.step h0 (StepAll.ret (Step.join room0 0 tokA))
    have h2 : ReachAll (roomRaised, 0) := ReachAll.step h1
      (StepAll.raise roomA 0 tokA [0, 0, 0] PickErr.valueError roomRaised rfl)
    exact ReachAll.step h2 (StepAll.ret (Step.draw roomRaised 0))
  · decide
